import Mathlib

/-!
Verification development for the recipe-app-api repository.

The authoritative source is `src/app/recipe/serializers.py` (the nested-write
association reconciler).  The Django models and view sets are not part of the
source tree here; where a claim depends on them they are modelled from the
specification (spec.md) and marked `Modelled from the spec:` in their doc
comments.  Machine state (the relational store) is passed explicitly; every
definition is executable.
-/

/-- A Tag or Ingredient row: synthetic `id`, owning `user` id and `name`.
Per spec section 3 the two entity kinds have the identical shape; they live in
two distinct tables of the store. -/
structure Entity where
  id : Nat
  user : Nat
  name : String
deriving DecidableEq

/-- A Recipe row (spec section 3): identifier, owning user, scalar fields and
the two many-to-many association sets, embedded as lists of entity ids. -/
structure RecipeRow where
  id : Nat
  user : Nat
  title : String
  time_minutes : Nat
  price : Int
  link : String
  description : String
  tagIds : List Nat
  ingredientIds : List Nat
deriving DecidableEq

/-- The relational store: the Tag table, the Ingredient table, the Recipe
table and the id counters used when rows are inserted. -/
structure DB where
  tags : List Entity
  ingredients : List Entity
  recipes : List RecipeRow
  nextTagId : Nat
  nextRecipeId : Nat
deriving DecidableEq

/-- A client-supplied tag/ingredient descriptor.  The nested serializers
(`TagSerializer`, `IngredientSerializer`) expose `['id', 'name']` with `id`
read-only, so the only writable attribute is `name`. -/
structure Descriptor where
  name : String
deriving DecidableEq

/-- Embedding of `Tag.objects.get_or_create(user=auth_user, name=n)`
(serializers.py line 45): return the first Tag row owned by `u` whose name is
`n`; otherwise insert a fresh row owned by `u` with exactly the descriptor
attributes. -/
def tagGetOrCreate (db : DB) (u : Nat) (n : String) : Entity × DB :=
  match db.tags.find? (fun t => t.user == u && t.name == n) with
  | some t => (t, db)
  | none =>
    let t : Entity := ⟨db.nextTagId, u, n⟩
    (t, { db with tags := db.tags ++ [t], nextTagId := db.nextTagId + 1 })

/-- Django many-to-many `add` is idempotent: appending an id that is already
associated is a no-op. -/
def m2mAdd (ids : List Nat) (i : Nat) : List Nat :=
  if i ∈ ids then ids else ids ++ [i]

/-- Persist a recipe row: every stored row with the same id is replaced. -/
def DB.setRecipe (db : DB) (x : RecipeRow) : DB :=
  { db with recipes := db.recipes.map (fun row => if row.id == x.id then x else row) }

/-- Look a recipe row up by id. -/
def DB.findRecipe (db : DB) (rid : Nat) : Option RecipeRow :=
  db.recipes.find? (fun row => row.id == rid)

/-- Embedding of `RecipeSerializer._get_or_create_tags(self, tags, recipe)`
(serializers.py lines 41-49): for each descriptor run
`Tag.objects.get_or_create(user=auth_user, **tag)` and add the resulting row
to the recipe's tag association set; `ids` is the association set accumulated
so far. -/
def getOrCreateTags : DB → Nat → List Descriptor → List Nat → DB × List Nat
  | db, _, [], ids => (db, ids)
  | db, u, d :: ds, ids =>
    let p := tagGetOrCreate db u d.name
    getOrCreateTags p.2 u ds (m2mAdd ids p.1.id)

/-- Embedding of `RecipeSerializer._get_or_create_ingredient` (serializers.py
lines 52-60).  The body calls `Tag.objects.get_or_create` (not
`Ingredient.objects.get_or_create`) and then `recipe.ingredient.add`; the
Recipe model has no attribute `ingredient` (the tests and spec use
`ingredients`), so the first iteration creates/fetches a Tag row and then
raises AttributeError.  The method is never called anywhere in the source. -/
def getOrCreateIngredient : DB → Nat → List Descriptor → DB × Option String
  | db, _, [] => (db, none)
  | db, u, d :: _ =>
    let p := tagGetOrCreate db u d.name
    (p.2, some "AttributeError: Recipe object has no attribute ingredient")

/-- Validated data for a recipe create.  `tags` and `ingredients` are
`required=False`; `validated_data.pop(field, [])` makes an absent field
behave as the empty list, so both are plain lists here. -/
structure CreateValidated where
  title : String
  time_minutes : Nat
  price : Int
  link : String
  description : String
  tags : List Descriptor
  ingredients : List Descriptor
deriving DecidableEq

/-- Embedding of `RecipeSerializer.create` (serializers.py lines 63-70):
pop `tags` and `ingredients`, insert the recipe row (the view injects the
authenticated user as owner), then call `_get_or_create_tags(tags, recipe)`
and — the source reuses the tag path for the ingredient descriptors on
line 69 — `_get_or_create_tags(ingredients, recipe)`. -/
def RecipeSerializer.create (db : DB) (authUser : Nat) (vd : CreateValidated) :
    RecipeRow × DB :=
  let r0 : RecipeRow :=
    { id := db.nextRecipeId, user := authUser, title := vd.title,
      time_minutes := vd.time_minutes, price := vd.price, link := vd.link,
      description := vd.description, tagIds := [], ingredientIds := [] }
  let db1 : DB :=
    { db with recipes := db.recipes ++ [r0], nextRecipeId := db.nextRecipeId + 1 }
  let p1 := getOrCreateTags db1 authUser vd.tags []
  let p2 := getOrCreateTags p1.1 authUser vd.ingredients p1.2
  let r1 := { r0 with tagIds := p2.2 }
  (r1, p2.1.setRecipe r1)

/-- A recipe update payload: each field is `some v` when the key is present in
the request body and `none` when absent.  `user` is carried so that the
validation step (which drops keys that are not writable serializer fields) is
explicit rather than assumed. -/
structure Payload where
  user : Option Nat
  title : Option String
  link : Option String
  time_minutes : Option Nat
  price : Option Int
  description : Option String
  tags : Option (List Descriptor)
  ingredients : Option (List Descriptor)
deriving DecidableEq

/-- `RecipeSerializer.Meta.fields` (serializers.py lines 37-38). -/
def RecipeSerializer.MetaFields : List String :=
  ["id", "title", "link", "time_minutes", "price", "tags", "ingredients"]

/-- `RecipeSerializer.Meta.read_only_fields` (serializers.py line 39). -/
def RecipeSerializer.ReadOnlyFields : List String :=
  ["id"]

/-- `RecipeDetailsSerializer.Meta.fields` (serializers.py line 93): the base
fields plus `description`. -/
def RecipeDetailsSerializer.MetaFields : List String :=
  RecipeSerializer.MetaFields ++ ["description"]

/-- The writable fields of the detail serializer: declared fields minus the
read-only ones.  An incoming key that is not in this list never reaches
`validated_data`. -/
def writableFields : List String :=
  RecipeDetailsSerializer.MetaFields.filter
    (fun f => !(RecipeSerializer.ReadOnlyFields.contains f))

/-- The serializer validation step for an update payload: a key survives into
`validated_data` exactly when it is a writable serializer field.  In
particular `user` is not among `Meta.fields`, so it is always dropped. -/
def validatePatch (p : Payload) : Payload :=
  { user := if writableFields.contains "user" then p.user else none,
    title := if writableFields.contains "title" then p.title else none,
    link := if writableFields.contains "link" then p.link else none,
    time_minutes := if writableFields.contains "time_minutes" then p.time_minutes else none,
    price := if writableFields.contains "price" then p.price else none,
    description := if writableFields.contains "description" then p.description else none,
    tags := if writableFields.contains "tags" then p.tags else none,
    ingredients := if writableFields.contains "ingredients" then p.ingredients else none }

/-- One step of the generic `setattr(instance, attr, value)` loop of
`RecipeSerializer.update`: assignment of a present `user` value. -/
def applyOptUser (o : Option Nat) (i : RecipeRow) : RecipeRow :=
  match o with | some v => { i with user := v } | none => i

/-- Assignment of a present `title` value. -/
def applyOptTitle (o : Option String) (i : RecipeRow) : RecipeRow :=
  match o with | some v => { i with title := v } | none => i

/-- Assignment of a present `link` value. -/
def applyOptLink (o : Option String) (i : RecipeRow) : RecipeRow :=
  match o with | some v => { i with link := v } | none => i

/-- Assignment of a present `time_minutes` value. -/
def applyOptTime (o : Option Nat) (i : RecipeRow) : RecipeRow :=
  match o with | some v => { i with time_minutes := v } | none => i

/-- Assignment of a present `price` value. -/
def applyOptPrice (o : Option Int) (i : RecipeRow) : RecipeRow :=
  match o with | some v => { i with price := v } | none => i

/-- Assignment of a present `description` value. -/
def applyOptDescription (o : Option String) (i : RecipeRow) : RecipeRow :=
  match o with | some v => { i with description := v } | none => i

/-- Embedding of `RecipeSerializer.update` (serializers.py lines 72-84):
`tags = validated_data.pop('tags', None)`; when present, clear the recipe's
tag associations and reconcile the new descriptors (both persist immediately,
as Django many-to-many writes do); then the generic
`for attr, value in validated_data.items(): setattr(instance, attr, value)`
loop runs over the remaining keys in serializer field order and
`instance.save()` persists the scalar assignments.  `ingredients` is never
popped, so a present `ingredients` key reaches `setattr`, and assigning to a
many-to-many attribute raises TypeError (direct assignment to a many-to-many
set is prohibited by the framework; and even under the old assignment-as-set
semantics the assigned values are attribute bags, not Ingredient rows, so the
assignment raises TypeError in every framework version) before
`instance.save()` is reached: the scalar assignments stay unpersisted while
the tag writes remain, and ingredient associations are never cleared nor
reconciled — spec section 9 records exactly this, that the recipe-update path
never reconciles ingredients. -/
def RecipeSerializer.update (db : DB) (authUser : Nat) (inst0 : RecipeRow)
    (vd : Payload) : DB × Option String :=
  let s1 : DB × RecipeRow :=
    match vd.tags with
    | some l =>
      let instCleared := { inst0 with tagIds := [] }
      let db1 := db.setRecipe instCleared
      let p := getOrCreateTags db1 authUser l []
      let instTagged := { instCleared with tagIds := p.2 }
      (p.1.setRecipe instTagged, instTagged)
    | none => (db, inst0)
  let instA := applyOptPrice vd.price (applyOptTime vd.time_minutes
    (applyOptLink vd.link (applyOptTitle vd.title (applyOptUser vd.user s1.2))))
  match vd.ingredients with
  | some _ =>
    (s1.1, some "TypeError: direct assignment to a many-to-many set is prohibited")
  | none =>
    (s1.1.setRecipe (applyOptDescription vd.description instA), none)

/-- Insertion into a list sorted in descending order with respect to the
boolean comparison `le`: `x` goes in front of the first element that is
`le x`. -/
def insertDescBy (le : α → α → Bool) (x : α) : List α → List α
  | [] => [x]
  | y :: ys => if le y x then x :: y :: ys else y :: insertDescBy le x ys

/-- Insertion sort into descending order with respect to `le`. -/
def sortDescBy (le : α → α → Bool) : List α → List α
  | [] => []
  | y :: ys => insertDescBy le y (sortDescBy le ys)

/-- Modelled from the spec: the recipe views (`recipe/views.py`) are not in
the source tree.  Per spec section 4.2 and section 6 the recipe list endpoint
returns the authenticated user's recipes ordered by descending id. -/
def listRecipes (db : DB) (u : Nat) : List RecipeRow :=
  sortDescBy (fun a b => decide (a.id ≤ b.id))
    (db.recipes.filter (fun r => r.user == u))

/-- Modelled from the spec: comma-separated id parsing for the filter engine
(spec section 4.2, `tags=<comma-separated ids>`). -/
def paramsToInts (qs : String) : List Nat :=
  (qs.splitOn ",").filterMap String.toNat?

/-- Modelled from the spec: the filter engine (spec section 4.2), the view
code not being in the source tree.  A `tags` parameter keeps recipes with at
least one association to a Tag whose id is in the given set, an `ingredients`
parameter does the same for Ingredient, both filters combine with logical AND,
and the result is restricted to the authenticated user, deduplicated and
ordered by descending id. -/
def filterRecipes (db : DB) (u : Nat)
    (tagsParam ingredientsParam : Option String) : List RecipeRow :=
  let q0 := db.recipes
  let q1 : List RecipeRow := match tagsParam with
    | some s => q0.filter (fun r => (paramsToInts s).any (fun i => decide (i ∈ r.tagIds)))
    | none => q0
  let q2 : List RecipeRow := match ingredientsParam with
    | some s => q1.filter (fun r => (paramsToInts s).any (fun i => decide (i ∈ r.ingredientIds)))
    | none => q1
  sortDescBy (fun a b => decide (a.id ≤ b.id))
    ((q2.filter (fun r => r.user == u)).dedup)

/-- Modelled from the spec: the detail lookup of the recipe endpoints scopes
the query set to the authenticated user before resolving the id, so another
user's recipe id resolves to nothing (spec section 6: not-found, never
forbidden). -/
def getRecipeDetail (db : DB) (u rid : Nat) : Option RecipeRow :=
  (db.recipes.filter (fun r => r.user == u)).find? (fun r => r.id == rid)

/-- Modelled from the spec: DELETE on a recipe id.  The user-scoped lookup
decides between deletion (204) and not-found (404); a not-found leaves the
store untouched. -/
def deleteRecipe (db : DB) (u rid : Nat) : DB × Nat :=
  match getRecipeDetail db u rid with
  | some _ =>
    ({ db with recipes := db.recipes.filter (fun r => !(r.id == rid && r.user == u)) }, 204)
  | none => (db, 404)

/-- Modelled from the spec: PATCH on a recipe id.  The user-scoped lookup
either fails with 404 (store untouched) or hands the validated payload to
`RecipeSerializer.update`; an exception escaping the serializer surfaces as a
server error, success as 200. -/
def patchRecipe (db : DB) (u rid : Nat) (p : Payload) : DB × Nat :=
  match getRecipeDetail db u rid with
  | none => (db, 404)
  | some r =>
    let res := RecipeSerializer.update db u r (validatePatch p)
    match res.2 with
    | none => (res.1, 200)
    | some _ => (res.1, 500)

/-- Modelled from the spec: the user-scoped detail lookup of the Tag and
Ingredient endpoints (`pool` is the relevant table). -/
def getEntityDetail (pool : List Entity) (u eid : Nat) : Option Entity :=
  (pool.filter (fun e => e.user == u)).find? (fun e => e.id == eid)

/-- Modelled from the spec: DELETE on a Tag/Ingredient id, user-scoped; 404
leaves the table untouched. -/
def deleteEntity (pool : List Entity) (u eid : Nat) : List Entity × Nat :=
  match getEntityDetail pool u eid with
  | some _ => (pool.filter (fun e => !(e.id == eid && e.user == u)), 204)
  | none => (pool, 404)

/-- Modelled from the spec: the many-to-many join behind `assigned_only`
(spec section 4.2).  For each entity of `base` the join yields one row per
recipe of the same user that references it, so an entity assigned to N
recipes appears N times before deduplication. -/
def joinAssigned (recipes : List RecipeRow) (assoc : RecipeRow → List Nat)
    (u : Nat) : List Entity → List Entity
  | [] => []
  | e :: rest =>
    (recipes.filter (fun r => r.user == u && decide (e.id ∈ assoc r))).map (fun _ => e)
      ++ joinAssigned recipes assoc u rest

/-- Modelled from the spec: the Tag/Ingredient list endpoint (spec section
4.2), the view code not being in the source tree.  Restrict the table to the
authenticated user; with `assigned_only` truthy keep only entities with at
least one associated recipe of that user (through the duplicating join);
deduplicate and order by descending name. -/
def listEntityPool (pool : List Entity) (recipes : List RecipeRow)
    (assoc : RecipeRow → List Nat) (u : Nat) (assignedOnly : Bool) : List Entity :=
  let base := pool.filter (fun e => e.user == u)
  let rows := if assignedOnly then joinAssigned recipes assoc u base else base
  sortDescBy (fun a b => !(decide (b.name < a.name))) rows.dedup

/-- Modelled from the spec: the Tag list endpoint. -/
def listTags (db : DB) (u : Nat) (assignedOnly : Bool) : List Entity :=
  listEntityPool db.tags db.recipes (fun r => r.tagIds) u assignedOnly

/-- Modelled from the spec: the Ingredient list endpoint. -/
def listIngredients (db : DB) (u : Nat) (assignedOnly : Bool) : List Entity :=
  listEntityPool db.ingredients db.recipes (fun r => r.ingredientIds) u assignedOnly

/-- A user account row (spec section 3): identifier, email and credential.
Hashing of the credential is an external collaborator per spec section 1 and
is not modelled. -/
structure UserRow where
  id : Nat
  email : String
  password : String
deriving DecidableEq

/-- The identity store. -/
structure UserStore where
  users : List UserRow
  nextUserId : Nat
deriving DecidableEq

/-- Split a character list at its LAST occurrence of the at sign, the way
`rsplit` with one split does: `splitLastAt l = some (before, after)` with
`l = before ++ at :: after` and no at sign in `after`; `none` when the list
has no at sign. -/
def splitLastAt : List Char → Option (List Char × List Char)
  | [] => none
  | c :: cs =>
    match splitLastAt cs with
    | some p => some (c :: p.1, p.2)
    | none => if c = '@' then some ([], cs) else none

/-- Modelled from the spec: email normalization of the user manager
(`core/models.py` is not in the source tree).  Per spec sections 3 and 9 only
the domain portion — the part after the last at sign — is lowercased; the
local part is preserved character for character; a string without an at sign
is left unchanged. -/
def normalizeEmail (email : String) : String :=
  match splitLastAt email.data with
  | some p => ⟨p.1 ++ '@' :: p.2.map Char.toLower⟩
  | none => email

/-- Modelled from the spec: `create_user` of the custom user manager
(`core/models.py` is not in the source tree).  Registration stores the
normalized email (spec section 3); an empty email raises ValueError and
creates no account, as the repository's own test
`test_new_user_without_email_raises_error` asserts. -/
def createUser (s : UserStore) (email password : String) :
    UserStore × Except String UserRow :=
  if email = "" then
    (s, Except.error "ValueError: users must have an email address")
  else
    let u : UserRow := ⟨s.nextUserId, normalizeEmail email, password⟩
    ({ users := s.users ++ [u], nextUserId := s.nextUserId + 1 }, Except.ok u)

/-- Store for the C1 scenario: user 1 already owns the Tag `Indian` and the
Ingredient `Lemo` (mirrors `test_create_recipe_with_exisitng_tags` and
`test_create_recipe_with_existing_ingredient`). -/
def C1db : DB :=
  { tags := [⟨1, 1, "Indian"⟩], ingredients := [⟨1, 1, "Lemo"⟩],
    recipes := [], nextTagId := 2, nextRecipeId := 10 }

/-- Create payload for the C1 scenario: one tag descriptor matching the
existing Tag and one ingredient descriptor matching the existing
Ingredient. -/
def C1payload : CreateValidated :=
  { title := "pongal", time_minutes := 6, price := 50, link := "",
    description := "", tags := [⟨"Indian"⟩], ingredients := [⟨"Lemo"⟩] }

/-- Recipe row for the C3 scenario: one ingredient association. -/
def C3row : RecipeRow :=
  { id := 10, user := 1, title := "t", time_minutes := 5, price := 3,
    link := "", description := "", tagIds := [], ingredientIds := [5] }

/-- Store for the C3 scenario. -/
def C3db : DB :=
  { tags := [], ingredients := [⟨5, 1, "Pepper"⟩], recipes := [C3row],
    nextTagId := 1, nextRecipeId := 11 }

/-- Update payload for the C3 scenario: `ingredients` present and empty,
exactly the body of `test_clear_recipe_ingredients`. -/
def C3payload : Payload :=
  { user := none, title := none, link := none, time_minutes := none,
    price := none, description := none, tags := none, ingredients := some [] }

/-- Store for the C4 scenario: a fresh user with no tags and no
ingredients (mirrors `test_create_recipe_with_new_ingredients`). -/
def C4db : DB :=
  { tags := [], ingredients := [], recipes := [], nextTagId := 1, nextRecipeId := 1 }

/-- Create payload for the C4 scenario: two new ingredient descriptors, no
tags. -/
def C4payload : CreateValidated :=
  { title := "garlic dish", time_minutes := 12, price := 1230, link := "",
    description := "", tags := [], ingredients := [⟨"garlic"⟩, ⟨"sa"⟩] }

/-- Recipe row for the C2 witness scenario: one tag association. -/
def C2row : RecipeRow :=
  { id := 10, user := 1, title := "t", time_minutes := 5, price := 3,
    link := "", description := "", tagIds := [1], ingredientIds := [] }

/-- Store for the C2 witness scenario. -/
def C2db : DB :=
  { tags := [⟨1, 1, "dessert"⟩], ingredients := [], recipes := [C2row],
    nextTagId := 2, nextRecipeId := 11 }

/-- Update payload for the C2 witness scenario: `tags` present and empty. -/
def C2payload : Payload :=
  { user := none, title := none, link := none, time_minutes := none,
    price := none, description := none, tags := some [], ingredients := none }

/-- Recipe row for the C5 witness scenario. -/
def C5row : RecipeRow :=
  { id := 10, user := 1, title := "old title", time_minutes := 5, price := 3,
    link := "lnk", description := "des", tagIds := [], ingredientIds := [] }

/-- Store for the C5 witness scenario: user 2 exists as a second account
owner for the attempted reassignment. -/
def C5db : DB :=
  { tags := [], ingredients := [], recipes := [C5row], nextTagId := 1, nextRecipeId := 11 }

/-- Patch payload for the C5 witness scenario: tries to set `user` to 2 and
also carries an ordinary title change. -/
def C5payload : Payload :=
  { user := some 2, title := some "new title", link := none, time_minutes := none,
    price := none, description := none, tags := none, ingredients := none }

/-- Counterexample payload for C5: tries to set `user` to 2 AND carries the
`ingredients` field, whose presence makes the update fail (the C3 defect). -/
def C5badPayload : Payload :=
  { user := some 2, title := none, link := none, time_minutes := none,
    price := none, description := none, tags := none, ingredients := some [] }

/-- Recipe row for the C6 witness scenario, owned by user 1. -/
def C6row : RecipeRow :=
  { id := 10, user := 1, title := "t", time_minutes := 5, price := 3,
    link := "", description := "", tagIds := [1], ingredientIds := [2] }

/-- Store for the C6 witness scenario. -/
def C6db : DB :=
  { tags := [⟨1, 1, "Veg"⟩], ingredients := [⟨2, 1, "cheese"⟩],
    recipes := [C6row], nextTagId := 2, nextRecipeId := 11 }

/-- Store for the C8 witness scenario: one ingredient assigned to two
recipes of the same user (mirrors `test_filtered_ingredient_unique`). -/
def C8db : DB :=
  { tags := [],
    ingredients := [⟨1, 1, "Shrimp"⟩, ⟨2, 1, "cake"⟩],
    recipes := [{ id := 10, user := 1, title := "egg", time_minutes := 7,
                  price := 3, link := "", description := "", tagIds := [],
                  ingredientIds := [1] },
                { id := 11, user := 1, title := "be egg", time_minutes := 9,
                  price := 3, link := "", description := "", tagIds := [],
                  ingredientIds := [1] }],
    nextTagId := 1, nextRecipeId := 12 }

lemma applyOptUser_eq (o : Option Nat) (i : RecipeRow) :
    applyOptUser o i = { i with user := o.getD i.user } := by
  cases o <;> rfl

lemma applyOptTitle_eq (o : Option String) (i : RecipeRow) :
    applyOptTitle o i = { i with title := o.getD i.title } := by
  cases o <;> rfl

lemma applyOptLink_eq (o : Option String) (i : RecipeRow) :
    applyOptLink o i = { i with link := o.getD i.link } := by
  cases o <;> rfl

lemma applyOptTime_eq (o : Option Nat) (i : RecipeRow) :
    applyOptTime o i = { i with time_minutes := o.getD i.time_minutes } := by
  cases o <;> rfl

lemma applyOptPrice_eq (o : Option Int) (i : RecipeRow) :
    applyOptPrice o i = { i with price := o.getD i.price } := by
  cases o <;> rfl

lemma applyOptDescription_eq (o : Option String) (i : RecipeRow) :
    applyOptDescription o i = { i with description := o.getD i.description } := by
  cases o <;> rfl

lemma getOrCreateTags_recipes (u : Nat) :
    ∀ (ds : List Descriptor) (db : DB) (ids : List Nat),
      (getOrCreateTags db u ds ids).1.recipes = db.recipes
  | [], _, _ => rfl
  | d :: ds, db, ids => by
    rw [getOrCreateTags, getOrCreateTags_recipes u ds]
    unfold tagGetOrCreate
    cases hf : db.tags.find? (fun t => t.user == u && t.name == d.name) <;> simp

lemma getOrCreateTags_nextRecipeId (u : Nat) :
    ∀ (ds : List Descriptor) (db : DB) (ids : List Nat),
      (getOrCreateTags db u ds ids).1.nextRecipeId = db.nextRecipeId
  | [], _, _ => rfl
  | d :: ds, db, ids => by
    rw [getOrCreateTags, getOrCreateTags_nextRecipeId u ds]
    unfold tagGetOrCreate
    cases hf : db.tags.find? (fun t => t.user == u && t.name == d.name) <;> simp

lemma setRow_map_id (x : RecipeRow) (l : List RecipeRow) :
    (l.map (fun row => if row.id == x.id then x else row)).map RecipeRow.id
      = l.map RecipeRow.id := by
  simp only [List.map_map]
  apply List.map_congr_left
  intro a _
  by_cases h : a.id = x.id
  · simp [Function.comp, h]
  · simp [Function.comp, h]

lemma setRecipe_map_id (db : DB) (x : RecipeRow) :
    (db.setRecipe x).recipes.map RecipeRow.id = db.recipes.map RecipeRow.id :=
  setRow_map_id x db.recipes

lemma findRow_set (x : RecipeRow) :
    ∀ l : List RecipeRow, x.id ∈ l.map RecipeRow.id →
      (l.map (fun row => if row.id == x.id then x else row)).find?
          (fun row => row.id == x.id) = some x
  | [], h => absurd h (by simp)
  | row :: rest, h => by
    by_cases hid : row.id = x.id
    · have hrw : (if row.id == x.id then x else row) = x := by simp [hid]
      simp only [List.map_cons, hrw]
      rw [List.find?_cons_of_pos _ (by simp)]
    · have hmem : x.id ∈ rest.map RecipeRow.id := by
        simp only [List.map_cons, List.mem_cons] at h
        rcases h with h | h
        · exact absurd h.symm hid
        · exact h
      have hrw : (if row.id == x.id then x else row) = row := by simp [hid]
      simp only [List.map_cons, hrw]
      rw [List.find?_cons_of_neg _ (by simp [hid])]
      exact findRow_set x rest hmem

lemma findRecipe_setRecipe (db : DB) (x : RecipeRow)
    (h : x.id ∈ db.recipes.map RecipeRow.id) :
    (db.setRecipe x).findRecipe x.id = some x :=
  findRow_set x db.recipes h

lemma find_filter_eq_some (p q : α → Bool) (r : α) :
    ∀ l : List α, r ∈ l → q r = true → p r = true →
      (∀ x ∈ l, p x = true → q x = true → x = r) →
      (l.filter q).find? p = some r
  | [], hr, _, _, _ => absurd hr (List.not_mem_nil r)
  | y :: ys, hr, hq, hp, huniq => by
    by_cases hqy : q y = true
    · rw [List.filter_cons_of_pos hqy]
      by_cases hpy : p y = true
      · have hyr : y = r := huniq y (List.mem_cons_self y ys) hpy hqy
        subst hyr
        exact List.find?_cons_of_pos _ hpy
      · rw [List.find?_cons_of_neg _ hpy]
        have hyr : y ≠ r := fun e => hpy (e ▸ hp)
        have hr2 : r ∈ ys := by
          rcases List.mem_cons.mp hr with h | h
          · exact absurd h.symm hyr
          · exact h
        exact find_filter_eq_some p q r ys hr2 hq hp
          (fun x hx => huniq x (List.mem_cons_of_mem y hx))
    · rw [List.filter_cons_of_neg hqy]
      have hyr : y ≠ r := fun e => hqy (e ▸ hq)
      have hr2 : r ∈ ys := by
        rcases List.mem_cons.mp hr with h | h
        · exact absurd h.symm hyr
        · exact h
      exact find_filter_eq_some p q r ys hr2 hq hp
        (fun x hx => huniq x (List.mem_cons_of_mem y hx))

lemma find_eq_some_of_unique (p : α → Bool) (r : α) :
    ∀ l : List α, r ∈ l → p r = true →
      (∀ x ∈ l, p x = true → x = r) →
      l.find? p = some r
  | [], hr, _, _ => absurd hr (List.not_mem_nil r)
  | y :: ys, hr, hp, huniq => by
    by_cases hpy : p y = true
    · have hyr : y = r := huniq y (List.mem_cons_self y ys) hpy
      subst hyr
      exact List.find?_cons_of_pos _ hpy
    · rw [List.find?_cons_of_neg _ hpy]
      have hyr : y ≠ r := fun e => hpy (e ▸ hp)
      have hr2 : r ∈ ys := by
        rcases List.mem_cons.mp hr with h | h
        · exact absurd h.symm hyr
        · exact h
      exact find_eq_some_of_unique p r ys hr2 hp
        (fun x hx => huniq x (List.mem_cons_of_mem y hx))

lemma getRecipeDetail_eq_some (db : DB) (u : Nat) (r : RecipeRow)
    (hr : r ∈ db.recipes) (hu : r.user = u)
    (huniq : ∀ x ∈ db.recipes, x.id = r.id → x = r) :
    getRecipeDetail db u r.id = some r := by
  unfold getRecipeDetail
  exact find_filter_eq_some _ _ r db.recipes hr (by simp [hu]) (by simp)
    (fun x hx hpx _ => huniq x hx (by simpa using hpx))

lemma getRecipeDetail_eq_none (db : DB) (u rid : Nat)
    (h : ∀ x ∈ db.recipes, x.id = rid → x.user ≠ u) :
    getRecipeDetail db u rid = none := by
  unfold getRecipeDetail
  rw [List.find?_eq_none]
  intro x hx hpx
  rw [List.mem_filter] at hx
  exact h x hx.1 (by simpa using hpx) (by simpa using hx.2)

lemma getEntityDetail_eq_none (pool : List Entity) (u eid : Nat)
    (h : ∀ x ∈ pool, x.id = eid → x.user ≠ u) :
    getEntityDetail pool u eid = none := by
  unfold getEntityDetail
  rw [List.find?_eq_none]
  intro x hx hpx
  rw [List.mem_filter] at hx
  exact h x hx.1 (by simpa using hpx) (by simpa using hx.2)

lemma insertDescBy_perm (le : α → α → Bool) (x : α) :
    ∀ l : List α, List.Perm (insertDescBy le x l) (x :: l)
  | [] => List.Perm.refl _
  | y :: ys => by
    rw [insertDescBy]
    by_cases h : le y x = true
    · rw [if_pos h]
    · rw [if_neg h]
      exact (List.Perm.cons y (insertDescBy_perm le x ys)).trans (List.Perm.swap x y ys)

lemma sortDescBy_perm (le : α → α → Bool) :
    ∀ l : List α, List.Perm (sortDescBy le l) l
  | [] => List.Perm.refl _
  | y :: ys =>
    (insertDescBy_perm le y (sortDescBy le ys)).trans
      (List.Perm.cons y (sortDescBy_perm le ys))

lemma mem_sortDescBy (le : α → α → Bool) (l : List α) (a : α) :
    a ∈ sortDescBy le l ↔ a ∈ l :=
  (sortDescBy_perm le l).mem_iff

lemma count_sortDescBy [DecidableEq α] (le : α → α → Bool) (l : List α) (a : α) :
    (sortDescBy le l).count a = l.count a :=
  (sortDescBy_perm le l).count_eq a

lemma mem_joinAssigned (recipes : List RecipeRow) (assoc : RecipeRow → List Nat)
    (u : Nat) (x : Entity) :
    ∀ base : List Entity,
      (x ∈ joinAssigned recipes assoc u base ↔
        x ∈ base ∧ ∃ r ∈ recipes, r.user = u ∧ x.id ∈ assoc r)
  | [] => by simp [joinAssigned]
  | e :: rest => by
    rw [joinAssigned, List.mem_append, mem_joinAssigned recipes assoc u x rest]
    simp only [List.mem_map, List.mem_filter, List.mem_cons, Bool.and_eq_true,
      beq_iff_eq, decide_eq_true_eq]
    constructor
    · rintro (⟨r, ⟨hr, hru, hid⟩, rfl⟩ | ⟨hx, hex⟩)
      · exact ⟨Or.inl rfl, r, hr, hru, hid⟩
      · exact ⟨Or.inr hx, hex⟩
    · rintro ⟨rfl | hx, r, hr, hru, hid⟩
      · exact Or.inl ⟨r, ⟨hr, hru, hid⟩, rfl⟩
      · exact Or.inr ⟨hx, r, hr, hru, hid⟩

lemma splitLastAt_eq_none : ∀ l : List Char, '@' ∉ l → splitLastAt l = none
  | [], _ => rfl
  | c :: cs, h => by
    have hc : ¬ (c = '@') := by
      intro e
      subst e
      exact h (List.mem_cons_self _ _)
    have hcs : '@' ∉ cs := fun m => h (List.mem_cons_of_mem c m)
    rw [splitLastAt, splitLastAt_eq_none cs hcs]
    rw [if_neg hc]

lemma splitLastAt_append (dp : List Char) (hd : '@' ∉ dp) :
    ∀ lp : List Char, splitLastAt (lp ++ '@' :: dp) = some (lp, dp)
  | [] => by
    rw [List.nil_append, splitLastAt, splitLastAt_eq_none dp hd]
    rw [if_pos rfl]
  | c :: lp2 => by
    rw [List.cons_append, splitLastAt, splitLastAt_append dp hd lp2]

lemma applyChain_eq (vd : Payload) (i : RecipeRow) :
    applyOptDescription vd.description (applyOptPrice vd.price (applyOptTime vd.time_minutes
      (applyOptLink vd.link (applyOptTitle vd.title (applyOptUser vd.user i))))) =
    { i with
      user := vd.user.getD i.user, title := vd.title.getD i.title,
      link := vd.link.getD i.link, time_minutes := vd.time_minutes.getD i.time_minutes,
      price := vd.price.getD i.price, description := vd.description.getD i.description } := by
  rw [applyOptUser_eq, applyOptTitle_eq, applyOptLink_eq, applyOptTime_eq,
    applyOptPrice_eq, applyOptDescription_eq]

lemma update_characterization (db : DB) (u : Nat) (inst : RecipeRow) (vd : Payload)
    (hing : vd.ingredients = none)
    (hid : inst.id ∈ db.recipes.map RecipeRow.id) :
    (RecipeSerializer.update db u inst vd).2 = none ∧
    ∃ r2, (RecipeSerializer.update db u inst vd).1.findRecipe inst.id = some r2 ∧
      r2.user = vd.user.getD inst.user ∧
      r2.title = vd.title.getD inst.title ∧
      r2.link = vd.link.getD inst.link ∧
      r2.time_minutes = vd.time_minutes.getD inst.time_minutes ∧
      r2.price = vd.price.getD inst.price ∧
      r2.description = vd.description.getD inst.description ∧
      r2.tagIds = (match vd.tags with
        | some l => (getOrCreateTags (db.setRecipe { inst with tagIds := [] }) u l []).2
        | none => inst.tagIds) := by
  cases htags : vd.tags with
  | none =>
    have hupd : RecipeSerializer.update db u inst vd = (db.setRecipe
        { inst with
          user := vd.user.getD inst.user, title := vd.title.getD inst.title,
          link := vd.link.getD inst.link, time_minutes := vd.time_minutes.getD inst.time_minutes,
          price := vd.price.getD inst.price,
          description := vd.description.getD inst.description }, none) := by
      simp only [RecipeSerializer.update, htags, hing, applyChain_eq]
    rw [hupd]
    exact ⟨rfl, _, findRecipe_setRecipe db _ hid, rfl, rfl, rfl, rfl, rfl, rfl, rfl⟩
  | some l =>
    have hupd : RecipeSerializer.update db u inst vd =
        (((getOrCreateTags (db.setRecipe { inst with tagIds := [] }) u l []).1.setRecipe
            { inst with tagIds :=
                (getOrCreateTags (db.setRecipe { inst with tagIds := [] }) u l []).2 }).setRecipe
          { inst with
            tagIds := (getOrCreateTags (db.setRecipe { inst with tagIds := [] }) u l []).2,
            user := vd.user.getD inst.user, title := vd.title.getD inst.title,
            link := vd.link.getD inst.link,
            time_minutes := vd.time_minutes.getD inst.time_minutes,
            price := vd.price.getD inst.price,
            description := vd.description.getD inst.description }, none) := by
      simp only [RecipeSerializer.update, htags, hing, applyChain_eq]
    rw [hupd]
    refine ⟨rfl, _, findRecipe_setRecipe _ _ ?_, rfl, rfl, rfl, rfl, rfl, rfl, rfl⟩
    rw [setRecipe_map_id, getOrCreateTags_recipes, setRecipe_map_id]
    exact hid

/-- C1: the claim states that reconciliation reuses an existing entity of the
SAME kind for both Tag and Ingredient descriptors.  Evaluated at a store
where user 1 already owns Tag `Indian` and Ingredient `Lemo` and a create
supplying a tag descriptor `Indian` and an ingredient descriptor `Lemo`:
the tag half behaves as claimed (the existing Tag id 1 is reused, no
duplicate appears), but the ingredient descriptor is reconciled through the
Tag table — a NEW Tag (2, `Lemo`) is created and attached to the tag
association set, the existing Ingredient is not reused and the recipe ends
with no ingredient associations at all. -/
theorem create_reuses_tags_but_not_ingredients :
    (RecipeSerializer.create C1db 1 C1payload).1.tagIds = [1, 2] ∧
    (RecipeSerializer.create C1db 1 C1payload).1.ingredientIds = [] ∧
    (RecipeSerializer.create C1db 1 C1payload).2.tags =
      [⟨1, 1, "Indian"⟩, ⟨2, 1, "Lemo"⟩] ∧
    (RecipeSerializer.create C1db 1 C1payload).2.ingredients = [⟨1, 1, "Lemo"⟩] := by
  decide

/-- C3: the claim states that an update payload with `ingredients := []`
clears the recipe's ingredient associations and succeeds.  Evaluated on a
recipe that has one ingredient association: `RecipeSerializer.update` (the
src-level code) never pops `ingredients`, the key reaches the generic
`setattr` loop and the many-to-many assignment raises TypeError, leaving the
store — the ingredient association included — exactly as it was; at the
endpoint level the request answers 500, where the claim and the repository's
own `test_clear_recipe_ingredients` expect 200 with zero associations. -/
theorem patch_empty_ingredients_raises_type_error :
    (RecipeSerializer.update C3db 1 C3row (validatePatch C3payload)).2 =
      some "TypeError: direct assignment to a many-to-many set is prohibited" ∧
    (RecipeSerializer.update C3db 1 C3row (validatePatch C3payload)).1 = C3db ∧
    patchRecipe C3db 1 10 C3payload = (C3db, 500) ∧
    C3db.findRecipe 10 = some C3row ∧
    C3row.ingredientIds = [5] := by
  decide

/-- C4: the claim states that create resolves ingredient descriptors to
Ingredient entities attached to the ingredient association set.  Evaluated on
a fresh user creating a recipe with ingredient descriptors `garlic` and `sa`:
the code calls `_get_or_create_tags` on them (serializers.py line 69), so two
TAG rows are created and attached to the tag set, the Ingredient table stays
empty and the recipe has no ingredient associations. -/
theorem create_turns_ingredient_descriptors_into_tags :
    (RecipeSerializer.create C4db 1 C4payload).1.ingredientIds = [] ∧
    (RecipeSerializer.create C4db 1 C4payload).2.ingredients = [] ∧
    (RecipeSerializer.create C4db 1 C4payload).2.tags =
      [⟨1, 1, "garlic"⟩, ⟨2, 1, "sa"⟩] ∧
    (RecipeSerializer.create C4db 1 C4payload).1.tagIds = [1, 2] := by
  decide

/-- C2: for every update whose payload carries the `tags` field — whatever
the other fields carry — the current tag associations are first cleared and
the supplied descriptors reconciled onto the cleared set (so `tags = []`
leaves zero tag associations), and a payload without the `tags` field leaves
the tag associations unchanged.  The tag writes persist immediately, so the
conclusion also holds for payloads that additionally carry the `ingredients`
field and therefore make the request error afterwards (the C3 defect); the
only hypothesis besides membership is primary-key uniqueness of the stored
rows, which every reachable store satisfies. -/
theorem update_tags_replace_semantics (db : DB) (u : Nat) (r : RecipeRow)
    (vd : Payload) (hr : r ∈ db.recipes)
    (huniq : ∀ x ∈ db.recipes, x.id = r.id → x = r) :
    (vd.tags = none →
      ∃ r2, (RecipeSerializer.update db u r vd).1.findRecipe r.id = some r2 ∧
        r2.tagIds = r.tagIds) ∧
    (∀ l, vd.tags = some l →
      ∃ r2, (RecipeSerializer.update db u r vd).1.findRecipe r.id = some r2 ∧
        r2.tagIds = (getOrCreateTags (db.setRecipe { r with tagIds := [] }) u l []).2) ∧
    (vd.tags = some [] →
      ∃ r2, (RecipeSerializer.update db u r vd).1.findRecipe r.id = some r2 ∧
        r2.tagIds = []) := by
  have hid : r.id ∈ db.recipes.map RecipeRow.id := List.mem_map_of_mem RecipeRow.id hr
  have hmainSome : ∀ l, vd.tags = some l →
      ∃ r2, (RecipeSerializer.update db u r vd).1.findRecipe r.id = some r2 ∧
        r2.tagIds = (getOrCreateTags (db.setRecipe { r with tagIds := [] }) u l []).2 := by
    intro l hsome
    cases hing : vd.ingredients with
    | none =>
      obtain ⟨-, r2, hfind, -, -, -, -, -, -, htg⟩ :=
        update_characterization db u r vd hing hid
      exact ⟨r2, hfind, by rw [htg, hsome]⟩
    | some li =>
      have hupd : (RecipeSerializer.update db u r vd).1 =
          (getOrCreateTags (db.setRecipe { r with tagIds := [] }) u l []).1.setRecipe
            { r with
              tagIds := (getOrCreateTags (db.setRecipe { r with tagIds := [] }) u l []).2 } := by
        simp only [RecipeSerializer.update, hsome, hing]
      rw [hupd]
      refine ⟨_, findRecipe_setRecipe _ _ ?_, rfl⟩
      rw [getOrCreateTags_recipes, setRecipe_map_id]
      exact hid
  have hmainNone : vd.tags = none →
      ∃ r2, (RecipeSerializer.update db u r vd).1.findRecipe r.id = some r2 ∧
        r2.tagIds = r.tagIds := by
    intro hnone
    cases hing : vd.ingredients with
    | none =>
      obtain ⟨-, r2, hfind, -, -, -, -, -, -, htg⟩ :=
        update_characterization db u r vd hing hid
      exact ⟨r2, hfind, by rw [htg, hnone]⟩
    | some li =>
      have hupd : (RecipeSerializer.update db u r vd).1 = db := by
        simp only [RecipeSerializer.update, hnone, hing]
      rw [hupd]
      refine ⟨r, ?_, rfl⟩
      exact find_eq_some_of_unique _ r db.recipes hr (by simp)
        (fun x hx hpx => huniq x hx (by simpa using hpx))
  exact ⟨hmainNone, hmainSome, fun h => hmainSome [] h⟩

/-- Witness for C2 at the store of `test_clear_recipe_tags`: updating the
recipe that carries tag 1 with the payload `tags := []` leaves it with zero
tag associations. -/
theorem update_tags_replace_semantics_witness :
    ∃ r2, (RecipeSerializer.update C2db 1 C2row C2payload).1.findRecipe C2row.id
        = some r2 ∧ r2.tagIds = [] :=
  (update_tags_replace_semantics C2db 1 C2row C2payload (by decide) (by decide)).2.2 rfl

/-- Counterexample for C5 as frozen: the update payload `{user := 2,
ingredients := []}` attempts to set recipe 10's owner to user 2, yet the
operation does NOT succeed — it answers 500 (the present `ingredients` field
hits the C3 TypeError defect), refuting the claimed unconditional 200.  The
store — the owner included — is unchanged. -/
theorem patch_user_change_with_ingredients_fails :
    patchRecipe C5db 1 C5row.id C5badPayload = (C5db, 500) := by
  decide

/-- C5 as amended: whatever the payload, the stored row found at the
recipe's id after the patch still has the original owner — the attempted
`user` change is dropped at validation, never an error in itself; and
whenever the payload does not also carry the `ingredients` field (whose
presence fails the request with a server error — the C3 defect), the
operation succeeds with 200 and every other validated field of the payload
is applied normally (absent fields keep their prior values). -/
theorem patch_ignores_user_field (db : DB) (u : Nat) (r : RecipeRow) (p : Payload)
    (hr : r ∈ db.recipes) (hu : r.user = u)
    (huniq : ∀ x ∈ db.recipes, x.id = r.id → x = r) :
    (∀ r2, (patchRecipe db u r.id p).1.findRecipe r.id = some r2 →
      r2.user = r.user) ∧
    (p.ingredients = none →
      (patchRecipe db u r.id p).2 = 200 ∧
      ∃ r2, (patchRecipe db u r.id p).1.findRecipe r.id = some r2 ∧
        r2.user = r.user ∧
        r2.title = p.title.getD r.title ∧
        r2.link = p.link.getD r.link ∧
        r2.time_minutes = p.time_minutes.getD r.time_minutes ∧
        r2.price = p.price.getD r.price ∧
        r2.description = p.description.getD r.description) := by
  have hdet : getRecipeDetail db u r.id = some r :=
    getRecipeDetail_eq_some db u r hr hu huniq
  have hid : r.id ∈ db.recipes.map RecipeRow.id := List.mem_map_of_mem RecipeRow.id hr
  constructor
  · intro r2 hfind2
    have h1 : (patchRecipe db u r.id p).1
        = (RecipeSerializer.update db u r (validatePatch p)).1 := by
      simp only [patchRecipe, hdet]
      cases hres : (RecipeSerializer.update db u r (validatePatch p)).2 <;> rfl
    rw [h1] at hfind2
    cases hving : p.ingredients with
    | none =>
      have hval : (validatePatch p).ingredients = none := hving
      obtain ⟨-, r0, hfind0, huser0, -, -, -, -, -, -⟩ :=
        update_characterization db u r (validatePatch p) hval hid
      have heq : r0 = r2 := Option.some.inj (hfind0.symm.trans hfind2)
      rw [← heq]
      exact huser0
    | some li =>
      have hval : (validatePatch p).ingredients = some li := hving
      cases hvt : p.tags with
      | none =>
        have hvt2 : (validatePatch p).tags = none := hvt
        have hupd : (RecipeSerializer.update db u r (validatePatch p)).1 = db := by
          simp only [RecipeSerializer.update, hvt2, hval]
        rw [hupd] at hfind2
        have hfr : db.findRecipe r.id = some r :=
          find_eq_some_of_unique _ r db.recipes hr (by simp)
            (fun x hx hpx => huniq x hx (by simpa using hpx))
        have heq : r = r2 := Option.some.inj (hfr.symm.trans hfind2)
        rw [← heq]
      | some l =>
        have hvt2 : (validatePatch p).tags = some l := hvt
        have hupd : (RecipeSerializer.update db u r (validatePatch p)).1 =
            (getOrCreateTags (db.setRecipe { r with tagIds := [] }) u l []).1.setRecipe
              { r with
                tagIds :=
                  (getOrCreateTags (db.setRecipe { r with tagIds := [] }) u l []).2 } := by
          simp only [RecipeSerializer.update, hvt2, hval]
        rw [hupd] at hfind2
        have hfr : ((getOrCreateTags (db.setRecipe { r with tagIds := [] }) u l []).1.setRecipe
              { r with
                tagIds :=
                  (getOrCreateTags (db.setRecipe { r with tagIds := [] }) u l []).2 }).findRecipe
              r.id
            = some { r with
                tagIds :=
                  (getOrCreateTags (db.setRecipe { r with tagIds := [] }) u l []).2 } :=
          findRecipe_setRecipe _ _
            (by rw [getOrCreateTags_recipes, setRecipe_map_id]; exact hid)
        have heq := Option.some.inj (hfr.symm.trans hfind2)
        rw [← heq]
  · intro hing
    have hval : (validatePatch p).ingredients = none := hing
    obtain ⟨herr, r2, hfind, huser, htitle, hlink, htime, hprice, hdesc, -⟩ :=
      update_characterization db u r (validatePatch p) hval hid
    refine ⟨?_, ?_⟩
    · simp only [patchRecipe, hdet, herr]
    · simp only [patchRecipe, hdet, herr]
      exact ⟨r2, hfind, huser, htitle, hlink, htime, hprice, hdesc⟩

/-- Witness for the amended C5 at the store of `test_user_returns_error`:
patching recipe 10 (owned by user 1) with `user := 2` and a new title yields
200, the stored owner is still user 1 and the title change is applied. -/
theorem patch_ignores_user_field_witness :
    (∀ r2, (patchRecipe C5db 1 C5row.id C5payload).1.findRecipe C5row.id = some r2 →
      r2.user = C5row.user) ∧
    ((patchRecipe C5db 1 C5row.id C5payload).2 = 200 ∧
      ∃ r2, (patchRecipe C5db 1 C5row.id C5payload).1.findRecipe C5row.id = some r2 ∧
        r2.user = C5row.user ∧
        r2.title = C5payload.title.getD C5row.title ∧
        r2.link = C5payload.link.getD C5row.link ∧
        r2.time_minutes = C5payload.time_minutes.getD C5row.time_minutes ∧
        r2.price = C5payload.price.getD C5row.price ∧
        r2.description = C5payload.description.getD C5row.description) :=
  have h := patch_ignores_user_field C5db 1 C5row C5payload (by decide) rfl (by decide)
  ⟨h.1, h.2 rfl⟩

lemma listEntityPool_mem_true (pool : List Entity) (recipes : List RecipeRow)
    (assoc : RecipeRow → List Nat) (u : Nat) (e : Entity) :
    e ∈ listEntityPool pool recipes assoc u true ↔
      e ∈ pool ∧ e.user = u ∧ ∃ r ∈ recipes, r.user = u ∧ e.id ∈ assoc r := by
  simp only [listEntityPool]
  rw [if_pos trivial, mem_sortDescBy, List.mem_dedup, mem_joinAssigned]
  simp only [List.mem_filter, beq_iff_eq]
  tauto

lemma listEntityPool_mem_false (pool : List Entity) (recipes : List RecipeRow)
    (assoc : RecipeRow → List Nat) (u : Nat) (e : Entity) :
    e ∈ listEntityPool pool recipes assoc u false ↔ e ∈ pool ∧ e.user = u := by
  simp only [listEntityPool]
  rw [if_neg (by simp), mem_sortDescBy, List.mem_dedup]
  simp only [List.mem_filter, beq_iff_eq]

lemma listEntityPool_count_eq_one (pool : List Entity) (recipes : List RecipeRow)
    (assoc : RecipeRow → List Nat) (u : Nat) (ao : Bool) (e : Entity)
    (h : e ∈ listEntityPool pool recipes assoc u ao) :
    (listEntityPool pool recipes assoc u ao).count e = 1 := by
  simp only [listEntityPool] at h ⊢
  rw [mem_sortDescBy, List.mem_dedup] at h
  rw [count_sortDescBy, List.count_dedup, if_pos h]

/-- C6: entities owned by user A are invisible to a distinct user B — absent
from B's recipe list, B's filtered recipe list, B's tag and ingredient lists
— and B's detail lookups and mutation attempts on them answer not-found
(never a forbidden status) while leaving the store untouched. -/
theorem ownership_isolation (db : DB) (A B : Nat) (hAB : A ≠ B) :
    (∀ r ∈ db.recipes, r.user = A → r ∉ listRecipes db B) ∧
    (∀ r ∈ db.recipes, r.user = A → ∀ tp ip, r ∉ filterRecipes db B tp ip) ∧
    (∀ e ∈ db.tags, e.user = A → ∀ ao, e ∉ listTags db B ao) ∧
    (∀ e ∈ db.ingredients, e.user = A → ∀ ao, e ∉ listIngredients db B ao) ∧
    (∀ r ∈ db.recipes, r.user = A → (∀ x ∈ db.recipes, x.id = r.id → x = r) →
      getRecipeDetail db B r.id = none ∧
      deleteRecipe db B r.id = (db, 404) ∧
      ∀ p, patchRecipe db B r.id p = (db, 404)) ∧
    (∀ e ∈ db.tags, e.user = A → (∀ x ∈ db.tags, x.id = e.id → x = e) →
      getEntityDetail db.tags B e.id = none ∧
      deleteEntity db.tags B e.id = (db.tags, 404)) ∧
    (∀ e ∈ db.ingredients, e.user = A → (∀ x ∈ db.ingredients, x.id = e.id → x = e) →
      getEntityDetail db.ingredients B e.id = none ∧
      deleteEntity db.ingredients B e.id = (db.ingredients, 404)) := by
  refine ⟨?_, ?_, ?_, ?_, ?_, ?_, ?_⟩
  · intro r hr hA hmem
    simp only [listRecipes] at hmem
    rw [mem_sortDescBy, List.mem_filter] at hmem
    exact hAB (hA.symm.trans (by simpa using hmem.2))
  · intro r hr hA tp ip hmem
    simp only [filterRecipes] at hmem
    rw [mem_sortDescBy, List.mem_dedup, List.mem_filter] at hmem
    exact hAB (hA.symm.trans (by simpa using hmem.2))
  · intro e he hA ao hmem
    cases ao
    · rw [listTags, listEntityPool_mem_false] at hmem
      exact hAB (hA.symm.trans hmem.2)
    · rw [listTags, listEntityPool_mem_true] at hmem
      exact hAB (hA.symm.trans hmem.2.1)
  · intro e he hA ao hmem
    cases ao
    · rw [listIngredients, listEntityPool_mem_false] at hmem
      exact hAB (hA.symm.trans hmem.2)
    · rw [listIngredients, listEntityPool_mem_true] at hmem
      exact hAB (hA.symm.trans hmem.2.1)
  · intro r hr hA huniq
    have hnone : getRecipeDetail db B r.id = none := by
      apply getRecipeDetail_eq_none
      intro x hx hxid
      rw [huniq x hx hxid, hA]
      exact hAB
    refine ⟨hnone, ?_, ?_⟩
    · unfold deleteRecipe
      rw [hnone]
    · intro p
      unfold patchRecipe
      rw [hnone]
  · intro e he hA huniq
    have hnone : getEntityDetail db.tags B e.id = none := by
      apply getEntityDetail_eq_none
      intro x hx hxid
      rw [huniq x hx hxid, hA]
      exact hAB
    refine ⟨hnone, ?_⟩
    unfold deleteEntity
    rw [hnone]
  · intro e he hA huniq
    have hnone : getEntityDetail db.ingredients B e.id = none := by
      apply getEntityDetail_eq_none
      intro x hx hxid
      rw [huniq x hx hxid, hA]
      exact hAB
    refine ⟨hnone, ?_⟩
    unfold deleteEntity
    rw [hnone]

/-- Witness for C6: in a store where user 1 owns recipe 10, that recipe is
absent from user 2's recipe list. -/
theorem ownership_isolation_witness : C6row ∉ listRecipes C6db 2 :=
  (ownership_isolation C6db 1 2 (by decide)).1 C6row (by decide) rfl

/-- C7: a recipe list query with a comma-separated `tags` parameter returns
exactly the user's recipes having at least one association with a Tag whose
id is in the given set, the `ingredients` parameter behaves the same for
Ingredient, and when both parameters are present the two filters combine
with logical AND. -/
theorem filter_recipes_by_ids (db : DB) (u : Nat) (r : RecipeRow) (ts ings : String) :
    (r ∈ filterRecipes db u (some ts) none ↔
      r ∈ db.recipes ∧ r.user = u ∧ ∃ i ∈ paramsToInts ts, i ∈ r.tagIds) ∧
    (r ∈ filterRecipes db u none (some ings) ↔
      r ∈ db.recipes ∧ r.user = u ∧ ∃ i ∈ paramsToInts ings, i ∈ r.ingredientIds) ∧
    (r ∈ filterRecipes db u (some ts) (some ings) ↔
      r ∈ db.recipes ∧ r.user = u ∧
        (∃ i ∈ paramsToInts ts, i ∈ r.tagIds) ∧
        (∃ i ∈ paramsToInts ings, i ∈ r.ingredientIds)) := by
  refine ⟨?_, ?_, ?_⟩
  · simp only [filterRecipes, mem_sortDescBy, List.mem_dedup, List.mem_filter,
      List.any_eq_true, decide_eq_true_eq, beq_iff_eq]
    tauto
  · simp only [filterRecipes, mem_sortDescBy, List.mem_dedup, List.mem_filter,
      List.any_eq_true, decide_eq_true_eq, beq_iff_eq]
    tauto
  · simp only [filterRecipes, mem_sortDescBy, List.mem_dedup, List.mem_filter,
      List.any_eq_true, decide_eq_true_eq, beq_iff_eq]
    tauto

/-- C8: with `assigned_only` truthy, the Tag and the Ingredient list contain
exactly the user's entities of that kind having at least one associated
recipe of that user, each appearing exactly once even when it is associated
with several recipes; without `assigned_only` all of the user's entities of
that kind are returned. -/
theorem assigned_only_characterization (db : DB) (u : Nat) (e : Entity) :
    (e ∈ listTags db u true ↔
      e ∈ db.tags ∧ e.user = u ∧ ∃ r ∈ db.recipes, r.user = u ∧ e.id ∈ r.tagIds) ∧
    (e ∈ listTags db u true → (listTags db u true).count e = 1) ∧
    (e ∈ listTags db u false ↔ e ∈ db.tags ∧ e.user = u) ∧
    (e ∈ listIngredients db u true ↔
      e ∈ db.ingredients ∧ e.user = u ∧
        ∃ r ∈ db.recipes, r.user = u ∧ e.id ∈ r.ingredientIds) ∧
    (e ∈ listIngredients db u true → (listIngredients db u true).count e = 1) ∧
    (e ∈ listIngredients db u false ↔ e ∈ db.ingredients ∧ e.user = u) := by
  refine ⟨?_, ?_, ?_, ?_, ?_, ?_⟩
  · exact listEntityPool_mem_true db.tags db.recipes (fun r => r.tagIds) u e
  · exact listEntityPool_count_eq_one db.tags db.recipes (fun r => r.tagIds) u true e
  · exact listEntityPool_mem_false db.tags db.recipes (fun r => r.tagIds) u e
  · exact listEntityPool_mem_true db.ingredients db.recipes (fun r => r.ingredientIds) u e
  · exact listEntityPool_count_eq_one db.ingredients db.recipes (fun r => r.ingredientIds) u true e
  · exact listEntityPool_mem_false db.ingredients db.recipes (fun r => r.ingredientIds) u e

/-- Witness for C8 at the store of `test_filtered_ingredient_unique`: the
ingredient `Shrimp` is assigned to two recipes of user 1 yet appears exactly
once in the `assigned_only` listing. -/
theorem assigned_only_characterization_witness :
    (listIngredients C8db 1 true).count ⟨1, 1, "Shrimp"⟩ = 1 :=
  (assigned_only_characterization C8db 1 ⟨1, 1, "Shrimp"⟩).2.2.2.2.1 (by decide)

/-- C9: registration stores the supplied email with exactly the domain
portion — the part after the last at sign — lowercased; the local part is
preserved character for character. -/
theorem create_user_normalizes_domain_only (s : UserStore) (email pw : String)
    (lp dp : List Char) (he : email.data = lp ++ '@' :: dp) (hd : '@' ∉ dp) :
    ∃ u, (createUser s email pw).2 = Except.ok u ∧
      u ∈ (createUser s email pw).1.users ∧
      u.email.data = lp ++ '@' :: dp.map Char.toLower := by
  have hne : ¬ (email = "") := by
    intro hemp
    have h2 : ([] : List Char) = lp ++ '@' :: dp := by rw [← he, hemp]
    have h3 := congrArg List.length h2
    simp [List.length_append] at h3
    omega
  unfold createUser
  rw [if_neg hne]
  refine ⟨_, rfl, by simp, ?_⟩
  show (normalizeEmail email).data = lp ++ '@' :: dp.map Char.toLower
  unfold normalizeEmail
  rw [he, splitLastAt_append dp hd lp]

/-- Witness for C9 at the second sample of `test_new_user_email_normalized`:
`Test2@Example.com` is stored as `Test2@example.com` — the upper-case local
part survives, the domain is lowercased. -/
theorem create_user_normalizes_domain_only_witness :
    ∃ u, (createUser ⟨[], 1⟩ "Test2@Example.com" "pw").2 = Except.ok u ∧
      u ∈ (createUser ⟨[], 1⟩ "Test2@Example.com" "pw").1.users ∧
      u.email.data = ("Test2@example.com" : String).data := by
  obtain ⟨u, h1, h2, h3⟩ :=
    create_user_normalizes_domain_only ⟨[], 1⟩ "Test2@Example.com" "pw"
      "Test2".data "Example.com".data (by decide) (by decide)
  exact ⟨u, h1, h2, h3.trans (by decide)⟩

/-- C10: creating a user with the empty email string raises ValueError and
creates no account — the identity store is returned unchanged. -/
theorem create_user_empty_email_error (s : UserStore) (pw : String) :
    (createUser s "" pw).1 = s ∧
    (createUser s "" pw).2 =
      Except.error "ValueError: users must have an email address" := by
  constructor <;> rfl
